import Mathlib

/-!
Verification of the membership-reconciliation coordinator of
`synapse_pangea_chat` (the `auto_accept_invite` module and the
`room_code.get_inviter_user` helper), as a shallow embedding in Lean 4.

Python dynamic values are embedded as the inductive `PyVal`; fallible Python
operations (`int(...)` conversions, external store calls) are embedded as
`Except PyErr` computations, so that an escaping Python exception corresponds
to an `.error` result and a `try/except` block to an explicit `match` on it.
-/

set_option autoImplicit false

namespace PangeaChat

/-- A JSON-ish Python value as it appears in event contents and account data:
strings, integers, booleans, `None`, lists/tuples, and string-keyed dicts
(kept as association lists in insertion order, as Python dicts are). -/
inductive PyVal where
  | str (s : String)
  | int (n : Int)
  | bool (b : Bool)
  | none
  | list (xs : List PyVal)
  | dict (xs : List (String × PyVal))
  deriving Repr

/-- The Python exceptions the embedded code distinguishes: `ValueError` and
`TypeError` from `int(...)`, and an opaque error for failing external calls. -/
inductive PyErr where
  | valueError
  | typeError
  | ioError
  deriving Repr, DecidableEq

/-- `d.get(k)` on a Python dict represented as an association list:
the value at the first matching key, if any. -/
def dget (d : List (String × PyVal)) (k : String) : Option PyVal :=
  (d.find? (fun kv => kv.1 == k)).map (fun kv => kv.2)

/-- `d[k] = v` on a Python dict: replaces the value at `k` in place when the
key is present (insertion order preserved), appends the pair otherwise. -/
def dset (d : List (String × PyVal)) (k : String) (v : PyVal) :
    List (String × PyVal) :=
  if (d.find? (fun kv => kv.1 == k)).isSome then
    d.map (fun kv => if kv.1 == k then (k, v) else kv)
  else
    d ++ [(k, v)]

/-- Decimal-digit accumulator for `parseIntLit`: `Option.none` until at least
one digit has been consumed, failing outright on a non-digit. -/
def parseDigits : List Char → Option Nat → Option Nat
  | [], acc => acc
  | c :: cs, acc =>
    if c.isDigit then
      parseDigits cs (some ((acc.getD 0) * 10 + (c.toNat - '0'.toNat)))
    else Option.none

/-- A decimal integer literal with an optional sign, as Python's
`int(str)` accepts. -/
def parseIntLit (s : String) : Option Int :=
  match s.data with
  | '-' :: rest => (parseDigits rest Option.none).map (fun n => -(n : Int))
  | '+' :: rest => (parseDigits rest Option.none).map (fun n => (n : Int))
  | l => (parseDigits l Option.none).map (fun n => (n : Int))

/-- Python `int(x)`: identity on ints, `True/False ↦ 1/0`, decimal-literal
parsing on strings (`ValueError` when the string does not parse), and
`TypeError` on `None`, lists and dicts. -/
def pyIntConv : PyVal → Except PyErr Int
  | .int n => .ok n
  | .bool b => .ok (if b then 1 else 0)
  | .str s =>
    match parseIntLit s with
    | some n => .ok n
    | Option.none => .error .valueError
  | .none => .error .typeError
  | .list _ => .error .typeError
  | .dict _ => .error .typeError

/-- Python truthiness for `PyVal` (`if x:`). -/
def pyTruthy : PyVal → Bool
  | .str s => !s.isEmpty
  | .int n => n != 0
  | .bool b => b
  | .none => false
  | .list xs => !xs.isEmpty
  | .dict xs => !xs.isEmpty

/-- Python `x == "lit"` where `x` is dynamic: true only when `x` is that
string. -/
def pyEqStr (v : PyVal) (lit : String) : Bool :=
  match v with
  | .str s => s == lit
  | _ => false

/-! ### Constants

`room_code/constants.py` is not under `src/`; these are the Matrix state-event
types, content keys, and defaults its importers use, with the default power
levels the spec fixes (invite 50, users_default 0). -/

def EVENT_TYPE_M_ROOM_POWER_LEVELS : String := "m.room.power_levels"

def EVENT_TYPE_M_ROOM_MEMBER : String := "m.room.member"

def EVENT_TYPE_M_ROOM_JOIN_RULES : String := "m.room.join_rules"

def INVITE_POWER_LEVEL_KEY : String := "invite"

def USERS_DEFAULT_POWER_LEVEL_KEY : String := "users_default"

def USERS_POWER_LEVEL_KEY : String := "users"

def MEMBERSHIP_CONTENT_KEY : String := "membership"

def MEMBERSHIP_JOIN : String := "join"

def JOIN_RULE_CONTENT_KEY : String := "join_rule"

def RESTRICTED_JOIN_RULE_VALUE : String := "restricted"

def KNOCK_RESTRICTED_JOIN_RULE_VALUE : String := "knock_restricted"

def DEFAULT_INVITE_POWER_LEVEL : Int := 50

def DEFAULT_USERS_DEFAULT_POWER_LEVEL : Int := 0

/-! ### Inviter Resolution Engine (`room_code/get_inviter_user.py`) -/

/-- A state event as `get_room_state` yields it: a type, a state key (dynamic:
the source checks `isinstance(user_id, str)`), and a dict content. -/
structure StateEvent where
  type : String
  state_key : PyVal
  content : List (String × PyVal)
  deriving Repr

/-- `int(power_levels.get(key, dflt))` wrapped in `try ... except ValueError`:
a missing key or an unparsable string yields the default, while a `TypeError`
from `int(None)` / `int(list)` / `int(dict)` is not caught and escapes. -/
def extractPowerInt (pl : List (String × PyVal)) (key : String) (dflt : Int) :
    Except PyErr Int :=
  match dget pl key with
  | Option.none => .ok dflt
  | some v =>
    match pyIntConv v with
    | .ok n => .ok n
    | .error .valueError => .ok dflt
    | .error e => .error e

/-- `power_levels.get("users", None)` coerced to `{}` unless it is a dict. -/
def usersPowerLevel (pl : List (String × PyVal)) : List (String × PyVal) :=
  match dget pl USERS_POWER_LEVEL_KEY with
  | some (.dict xs) => xs
  | _ => []

/-- The member-scan loop: local joined members, in the iteration order of the
state map — events of type `m.room.member` whose content membership is
`"join"`, whose state key is a string, and whose user is local. -/
def localJoinedMembers (isMine : String → Bool)
    (memberEvents : List StateEvent) : List String :=
  memberEvents.filterMap (fun e =>
    if e.type == EVENT_TYPE_M_ROOM_MEMBER then
      if pyEqStr ((dget e.content MEMBERSHIP_CONTENT_KEY).getD .none)
          MEMBERSHIP_JOIN then
        match e.state_key with
        | .str uid => if isMine uid then some uid else Option.none
        | _ => Option.none
      else Option.none
    else Option.none)

/-- The per-candidate power computation: the user's entry in the `users` map
converted with `int(...)` under `except (ValueError, TypeError)`, else the
room's `users_default`. Never fails. -/
def effectivePower (users : List (String × PyVal)) (usersDefault : Int)
    (uid : String) : Int :=
  match dget users uid with
  | some v =>
    match pyIntConv v with
    | .ok n => n
    | .error _ => usersDefault
  | Option.none => usersDefault

/-- The selection loop: tracks the highest effective power seen, switching
candidate only on a strictly greater power (`power_level >
highest_local_power`), so the first maximal member in iteration order wins. -/
def pickHighestPower (users : List (String × PyVal)) (usersDefault : Int)
    (members : List String) : Option (String × Int) :=
  members.foldl (fun acc uid =>
    let p := effectivePower users usersDefault uid
    match acc with
    | Option.none => some (uid, p)
    | some best => if p > best.2 then some (uid, p) else some best)
    Option.none

/-- `get_inviter_user` (the non-promoting inviter resolution of
`room_code/get_inviter_user.py`): reads the first power-levels event, returns
`None` when absent or falsy, extracts `invite` and `users_default` (only
`ValueError` caught), collects local joined members, returns `None` when there
are none, picks the member with the highest effective power, and returns
`None` when that power is below the invite power. Purely a read: it issues no
events. -/
def get_inviter_user (isMine : String → Bool) (plEvents : List StateEvent)
    (memberEvents : List StateEvent) : Except PyErr (Option String) := do
  let power_levels? :=
    (plEvents.find? (fun e => e.type == EVENT_TYPE_M_ROOM_POWER_LEVELS)).map
      (fun e => e.content)
  match power_levels? with
  | Option.none => return Option.none
  | some power_levels =>
    if power_levels.isEmpty then
      return Option.none
    else
      let invite_power ← extractPowerInt power_levels INVITE_POWER_LEVEL_KEY
        DEFAULT_INVITE_POWER_LEVEL
      let users_default ← extractPowerInt power_levels
        USERS_DEFAULT_POWER_LEVEL_KEY DEFAULT_USERS_DEFAULT_POWER_LEVEL
      let users_power_level := usersPowerLevel power_levels
      let members := localJoinedMembers isMine memberEvents
      if members.isEmpty then
        return Option.none
      else
        match pickHighestPower users_power_level users_default members with
        | Option.none => return Option.none
        | some best =>
          if best.2 < invite_power then
            return Option.none
          else
            return some best.1

/-- Whether an embedded Python computation finished without an escaping
exception. -/
def isOkE {α : Type} : Except PyErr α → Bool
  | .ok _ => true
  | .error _ => false

/-! ### Concrete sample rooms used by witnesses -/

def samplePL : StateEvent :=
  ⟨EVENT_TYPE_M_ROOM_POWER_LEVELS, .str "",
    [(INVITE_POWER_LEVEL_KEY, .int 50),
     (USERS_DEFAULT_POWER_LEVEL_KEY, .int 0),
     (USERS_POWER_LEVEL_KEY, .dict [("@alice:pangea.chat", .int 100)])]⟩

def sampleAlice : StateEvent :=
  ⟨EVENT_TYPE_M_ROOM_MEMBER, .str "@alice:pangea.chat",
    [(MEMBERSHIP_CONTENT_KEY, .str "join")]⟩

def sampleBob : StateEvent :=
  ⟨EVENT_TYPE_M_ROOM_MEMBER, .str "@bob:pangea.chat",
    [(MEMBERSHIP_CONTENT_KEY, .str "join")]⟩

/-! ### Knock History Resolver (`_has_user_previously_knocked`) -/

/-- A membership event as the resolver sees it: `getattr(event, "membership",
content.get("membership"))` means the attribute (when the event object has
one) wins over the content entry; `unsigned` carries `replaces_state`. -/
structure MemberEvent where
  membership_attr : Option PyVal
  content : List (String × PyVal)
  unsigned : List (String × PyVal)
  deriving Repr

/-- A fetched superseded event: only `getattr(event, "content", {})` is
consulted. -/
structure FetchedEvent where
  content : List (String × PyVal)
  deriving Repr

/-- The resolved membership value of the most recent event:
`getattr(event, "membership", getattr(event, "content", {}).get("membership",
None))`. -/
def eventMembership (e : MemberEvent) : PyVal :=
  match e.membership_attr with
  | some v => v
  | Option.none => (dget e.content MEMBERSHIP_CONTENT_KEY).getD .none

/-- The body of the `try` block of `_has_user_previously_knocked`:
`fetchState` embeds `get_state_events_in_room(room, [("m.room.member",
invitee)])` and `fetchEvent` embeds `event_handler.get_event(...)` on the
superseding chain; an `.error` is an exception inside the block. -/
def hasKnockedBody (fetchState : Except PyErr (List MemberEvent))
    (fetchEvent : String → Except PyErr (Option FetchedEvent)) :
    Except PyErr Bool := do
  let membership_events ← fetchState
  match membership_events with
  | [] => return false
  | membership_event :: _ =>
    let membership := eventMembership membership_event
    if !pyTruthy membership then
      return false
    else if pyEqStr membership "knock" then
      return true
    else if pyEqStr membership "invite" then
      match (dget membership_event.unsigned "replaces_state").getD .none with
      | .str replaces_state =>
        let event? ← fetchEvent replaces_state
        match event? with
        | some event =>
          if pyEqStr ((dget event.content MEMBERSHIP_CONTENT_KEY).getD .none)
              "knock" then
            return true
          else
            return false
        | Option.none => return false
      | _ => return false
    else
      return false

/-- `_has_user_previously_knocked`: the body above under
`except Exception: return False`. -/
def has_user_previously_knocked (fetchState : Except PyErr (List MemberEvent))
    (fetchEvent : String → Except PyErr (Option FetchedEvent)) : Bool :=
  match hasKnockedBody fetchState fetchEvent with
  | .ok b => b
  | .error _ => false

/-! ### Auto-Join Actuator (`_retry_make_join`) -/

/-- The `while retries < 5` loop of `_retry_make_join`, with the mutable
`sleep`/`retries` state threaded explicitly. `outcome r` is whether the
`update_room_membership` call of the attempt made after `r` failures
succeeds (a raise is `false`). The result is the trace of delays slept, one
per attempt: the loop sleeps `sleep`, attempts the join, breaks on success
(`join_event is not None`), and on an exception sets `sleep = 2**retries` and
increments `retries`. -/
def retryMakeJoinLoop (outcome : Nat → Bool) (sleep retries : Nat) :
    List Nat :=
  if h : retries < 5 then
    if outcome retries then [sleep]
    else sleep :: retryMakeJoinLoop outcome (2 ^ retries) (retries + 1)
  else []
termination_by 5 - retries
decreasing_by omega

/-- `_retry_make_join`: the loop entered with `sleep = 0`, `retries = 0`. -/
def retry_make_join (outcome : Nat → Bool) : List Nat :=
  retryMakeJoinLoop outcome 0 0

/-! ### Direct-Message Tagger (`_mark_room_as_direct_message`) -/

/-- The decision logic of `_mark_room_as_direct_message` over the
direct-message map read from account data under `m.direct` (Python tuples and
lists both appear as `.list`). The result is the full map handed to
`put_global`, or `Option.none` when the function returns without writing
(the stored entry for the counterparty is not a tuple or list). A missing
counterparty gets a fresh one-element collection; an existing collection gets
`room_id` appended unconditionally. -/
def mark_room_as_direct_message (dm_map : List (String × PyVal))
    (dm_user_id room_id : String) : Option (List (String × PyVal)) :=
  match dget dm_map dm_user_id with
  | Option.none => some (dset dm_map dm_user_id (.list [.str room_id]))
  | some (.list dm_rooms_for_user) =>
    some (dset dm_map dm_user_id
      (.list (dm_rooms_for_user ++ [.str room_id])))
  | some _ => Option.none

/-! ### Public entry point (`on_new_event`) -/

/-- The background tasks `on_new_event` schedules with
`run_as_background_process` (scheduling itself does not raise; the task body
runs detached from the entry point). -/
inductive BgTask where
  | retryMakeJoin (sender target room_id new_membership : String)
  | autoInviteKnocker (knocker room_id : String)
  | ensureInviterOnLeave (room_id : String)
  deriving Repr, DecidableEq

/-- The incoming event as `on_new_event` reads it. -/
structure NewEvent where
  type : String
  isState : Bool
  membership : String
  state_key : String
  sender : String
  room_id : String
  content : List (String × PyVal)
  deriving Repr

/-- `on_new_event`: filters to membership state events; on an invite for a
local user reads `is_direct`, consults the knock resolver (`hasKnocked` is
its boolean answer — it never raises, see the fail-safe theorem), schedules
the join retry in the background and, when the invite was direct, awaits
`_mark_room_as_direct_message`, whose account-data calls are embedded as
`markDM` and are **not** guarded by any `try` here; knocks and leave/ban
schedule their background handlers. The entry point itself has no
`try/except`. -/
def on_new_event (isMine : String → Bool) (hasKnocked : Bool)
    (markDM : Except PyErr Unit) (e : NewEvent) :
    Except PyErr (List BgTask) :=
  if !(e.type == "m.room.member") || !e.isState then
    .ok []
  else if e.membership == "invite" && isMine e.state_key then
    let is_direct_message := (dget e.content "is_direct").getD (.bool false)
    if hasKnocked then
      let tasks := [BgTask.retryMakeJoin e.state_key e.state_key e.room_id
        "join"]
      if pyTruthy is_direct_message then
        match markDM with
        | .ok _ => .ok tasks
        | .error err => .error err
      else
        .ok tasks
    else
      .ok []
  else if e.membership == "knock" then
    .ok [BgTask.autoInviteKnocker e.state_key e.room_id]
  else if e.membership == "leave" || e.membership == "ban" then
    .ok [BgTask.ensureInviterOnLeave e.room_id]
  else
    .ok []

/-! ### Departure entry point (`_ensure_inviter_on_leave`) -/

/-- The state-event writes the departure path could issue. -/
inductive LeaveAction where
  | powerLevelsUpdate (user : String) (power : Int)
  | invite (sender target : String)
  deriving Repr, DecidableEq

/-- `_ensure_inviter_on_leave`: reads the room's join rule and returns
immediately unless it is `knock_restricted` or `restricted`; then resolves an
inviter with the (non-promoting) `get_inviter_user` and only logs the
outcome. The body contains no call that issues a state event, so the action
trace is empty on every path; any raise inside the body is swallowed by the
surrounding `except Exception`. The first component is the resolved
inviter. -/
def ensure_inviter_on_leave (isMine : String → Bool)
    (joinRulesEvents plEvents memberEvents : List StateEvent) :
    Option String × List LeaveAction :=
  let join_rule :=
    match joinRulesEvents.find?
        (fun e => e.type == EVENT_TYPE_M_ROOM_JOIN_RULES) with
    | some ev => (dget ev.content JOIN_RULE_CONTENT_KEY).getD .none
    | Option.none => .none
  if !(pyEqStr join_rule KNOCK_RESTRICTED_JOIN_RULE_VALUE ||
      pyEqStr join_rule RESTRICTED_JOIN_RULE_VALUE) then
    (Option.none, [])
  else
    match get_inviter_user isMine plEvents memberEvents with
    | .ok inviter => (inviter, [])
    | .error _ => (Option.none, [])

/-! ### Cooldown Tracker -/

/-- Modelled from the spec: the Cooldown Tracker (§4.6) is code of this
repository that is not under `src/`; per the spec it keeps a process-local
map `room_id → last_failure_time` with a fixed window (`cooldownWindow`,
default 300 seconds), `recordFailure(room)` stores the current time, and
`shouldSkip(room)` is true while `now - lastFailure(room) < cooldownWindow`.
Time is in whole seconds. -/
structure CooldownTracker where
  lastFailure : String → Option Nat

def cooldownWindow : Nat := 300

/-- Modelled from the spec: `recordFailure(room)` at time `now`. -/
def recordFailure (t : CooldownTracker) (room : String) (now : Nat) :
    CooldownTracker :=
  ⟨fun r => if r == room then some now else t.lastFailure r⟩

/-- Modelled from the spec: `shouldSkip(room)` at time `now`; a room with no
recorded failure is never skipped. -/
def shouldSkip (t : CooldownTracker) (room : String) (now : Nat) : Bool :=
  match t.lastFailure room with
  | some lf => now - lf < cooldownWindow
  | Option.none => false

/-! ### Theorems -/

theorem pickHighestPower_go (users : List (String × PyVal)) (ud : Int) :
    ∀ (members : List String) (b : String × Int),
      b.2 = effectivePower users ud b.1 →
      ∃ c, (members.foldl (fun acc uid =>
          let p := effectivePower users ud uid
          match acc with
          | Option.none => some (uid, p)
          | some best => if p > best.2 then some (uid, p) else some best)
          (some b)) = some c ∧
        c.2 = effectivePower users ud c.1 ∧
        (c = b ∨ c.1 ∈ members) ∧ b.2 ≤ c.2 ∧
        ∀ u ∈ members, effectivePower users ud u ≤ c.2 := by
  intro members
  induction members with
  | nil =>
    intro b hb
    exact ⟨b, rfl, hb, Or.inl rfl, le_refl _, by simp⟩
  | cons m rest ih =>
    intro b hb
    by_cases hgt : effectivePower users ud m > b.2
    · have hstep :
        ((m :: rest).foldl (fun acc uid =>
            let p := effectivePower users ud uid
            match acc with
            | Option.none => some (uid, p)
            | some best => if p > best.2 then some (uid, p) else some best)
            (some b)) =
        (rest.foldl (fun acc uid =>
            let p := effectivePower users ud uid
            match acc with
            | Option.none => some (uid, p)
            | some best => if p > best.2 then some (uid, p) else some best)
            (some (m, effectivePower users ud m))) := by
        simp [List.foldl_cons, hgt]
      obtain ⟨c, hc, hcp, hcm, hble, hall⟩ :=
        ih (m, effectivePower users ud m) rfl
      refine ⟨c, by rw [hstep]; exact hc, hcp, ?_, ?_, ?_⟩
      · rcases hcm with h | h
        · exact Or.inr (by simp [h])
        · exact Or.inr (List.mem_cons_of_mem _ h)
      · exact le_trans (le_of_lt hgt) hble
      · intro u hu
        rcases List.mem_cons.mp hu with h | h
        · subst h; exact hble
        · exact hall u h
    · have hstep :
        ((m :: rest).foldl (fun acc uid =>
            let p := effectivePower users ud uid
            match acc with
            | Option.none => some (uid, p)
            | some best => if p > best.2 then some (uid, p) else some best)
            (some b)) =
        (rest.foldl (fun acc uid =>
            let p := effectivePower users ud uid
            match acc with
            | Option.none => some (uid, p)
            | some best => if p > best.2 then some (uid, p) else some best)
            (some b)) := by
        simp [List.foldl_cons, hgt]
      obtain ⟨c, hc, hcp, hcm, hble, hall⟩ := ih b hb
      refine ⟨c, by rw [hstep]; exact hc, hcp, ?_, hble, ?_⟩
      · rcases hcm with h | h
        · exact Or.inl h
        · exact Or.inr (List.mem_cons_of_mem _ h)
      · intro u hu
        rcases List.mem_cons.mp hu with h | h
        · subst h; exact le_trans (not_lt.mp hgt) hble
        · exact hall u h

theorem pickHighestPower_spec (users : List (String × PyVal)) (ud : Int)
    (members : List String) (hne : members ≠ []) :
    ∃ c, pickHighestPower users ud members = some c ∧
      c.1 ∈ members ∧ c.2 = effectivePower users ud c.1 ∧
      ∀ u ∈ members, effectivePower users ud u ≤ c.2 := by
  match members, hne with
  | m :: rest, _ =>
    have hstep : pickHighestPower users ud (m :: rest) =
        (rest.foldl (fun acc uid =>
            let p := effectivePower users ud uid
            match acc with
            | Option.none => some (uid, p)
            | some best => if p > best.2 then some (uid, p) else some best)
            (some (m, effectivePower users ud m))) := by
      simp [pickHighestPower, List.foldl_cons]
    obtain ⟨c, hc, hcp, hcm, hble, hall⟩ :=
      pickHighestPower_go users ud rest (m, effectivePower users ud m) rfl
    refine ⟨c, by rw [hstep]; exact hc, ?_, hcp, ?_⟩
    · rcases hcm with h | h
      · exact by simp [h]
      · exact List.mem_cons_of_mem _ h
    · intro u hu
      rcases List.mem_cons.mp hu with h | h
      · subst h; exact hble
      · exact hall u h

/-- Unfolding of `get_inviter_user` once a power-levels event is found, its
content is non-empty, and both integer extractions succeed. -/
theorem get_inviter_user_eq (isMine : String → Bool)
    (plEvents memberEvents : List StateEvent)
    (pl : List (String × PyVal)) (ip ud : Int)
    (hpl : (plEvents.find?
        (fun e => e.type == EVENT_TYPE_M_ROOM_POWER_LEVELS)).map
        (fun e => e.content) = some pl)
    (hne : pl ≠ [])
    (hip : extractPowerInt pl INVITE_POWER_LEVEL_KEY
        DEFAULT_INVITE_POWER_LEVEL = .ok ip)
    (hud : extractPowerInt pl USERS_DEFAULT_POWER_LEVEL_KEY
        DEFAULT_USERS_DEFAULT_POWER_LEVEL = .ok ud) :
    get_inviter_user isMine plEvents memberEvents =
      (if (localJoinedMembers isMine memberEvents).isEmpty then
        .ok Option.none
      else
        match pickHighestPower (usersPowerLevel pl) ud
            (localJoinedMembers isMine memberEvents) with
        | Option.none => .ok Option.none
        | some best =>
          if best.2 < ip then .ok Option.none else .ok (some best.1)) := by
  have hplne : pl.isEmpty = false := by
    cases pl with
    | nil => exact absurd rfl hne
    | cons a l => rfl
  simp only [get_inviter_user, hpl, hplne, Bind.bind, Except.bind, hip, hud,
    Bool.false_eq_true, if_false, pure, Except.pure]

/-- C2: with a power-levels event present and local joined members non-empty,
the non-promoting `get_inviter_user` finishes without an exception and returns
a candidate exactly when some local joined member has effective power at least
the invite power. -/
theorem get_inviter_user_some_iff (isMine : String → Bool)
    (plEvents memberEvents : List StateEvent)
    (pl : List (String × PyVal)) (ip ud : Int)
    (hpl : (plEvents.find?
        (fun e => e.type == EVENT_TYPE_M_ROOM_POWER_LEVELS)).map
        (fun e => e.content) = some pl)
    (hne : pl ≠ [])
    (hip : extractPowerInt pl INVITE_POWER_LEVEL_KEY
        DEFAULT_INVITE_POWER_LEVEL = .ok ip)
    (hud : extractPowerInt pl USERS_DEFAULT_POWER_LEVEL_KEY
        DEFAULT_USERS_DEFAULT_POWER_LEVEL = .ok ud)
    (hm : localJoinedMembers isMine memberEvents ≠ []) :
    ∃ r, get_inviter_user isMine plEvents memberEvents = .ok r ∧
      (r.isSome = true ↔
        ∃ uid ∈ localJoinedMembers isMine memberEvents,
          ip ≤ effectivePower (usersPowerLevel pl) ud uid) := by
  have heq := get_inviter_user_eq isMine plEvents memberEvents pl ip ud hpl
    hne hip hud
  have hmem : (localJoinedMembers isMine memberEvents).isEmpty = false := by
    cases h : localJoinedMembers isMine memberEvents with
    | nil => exact absurd h hm
    | cons a l => rfl
  obtain ⟨c, hc, hcmem, hcp, hall⟩ := pickHighestPower_spec
    (usersPowerLevel pl) ud (localJoinedMembers isMine memberEvents) hm
  rw [heq, hmem]
  simp only [Bool.false_eq_true, if_false, hc]
  by_cases hlt : c.2 < ip
  · refine ⟨Option.none, by simp [hlt], ?_⟩
    simp only [Option.isSome_none]
    constructor
    · intro h; exact absurd h (by simp)
    · rintro ⟨uid, huid, hge⟩
      exact absurd (lt_of_le_of_lt (le_trans hge (hall uid huid)) hlt)
        (lt_irrefl _)
  · refine ⟨some c.1, by simp [hlt], ?_⟩
    simp only [Option.isSome_some, true_iff]
    exact ⟨c.1, hcmem, by rw [← hcp]; exact not_lt.mp hlt⟩

/-- C2 witness: in a room with invite power 50, `users_default` 0, Alice at
power 100 and Alice and Bob joined locally, the resolution succeeds and the
candidate exists exactly because a member with power at least 50 exists. -/
theorem get_inviter_user_some_iff_witness :
    ∃ r, get_inviter_user (fun _ => true) [samplePL] [sampleAlice, sampleBob] =
        .ok r ∧
      (r.isSome = true ↔
        ∃ uid ∈ localJoinedMembers (fun _ => true) [sampleAlice, sampleBob],
          (50 : Int) ≤ effectivePower (usersPowerLevel samplePL.content) 0
            uid) :=
  get_inviter_user_some_iff (fun _ => true) [samplePL] [sampleAlice, sampleBob]
    samplePL.content 50 0 rfl (by simp [samplePL]) rfl rfl (by decide)

/-- C3 counterexample: a power-levels content whose `invite` entry is `None`
makes `int(...)` raise a `TypeError`, which only the per-user conversions
catch — the exception escapes `get_inviter_user`, contradicting the claim that
no exception escapes for entries of any type. -/
theorem get_inviter_user_typeError_escapes :
    get_inviter_user (fun _ => true)
      [⟨EVENT_TYPE_M_ROOM_POWER_LEVELS, .str "",
        [(INVITE_POWER_LEVEL_KEY, PyVal.none)]⟩] [] =
      .error .typeError := rfl

/-- C3 amended: non-numeric strings in `invite`/`users_default` fall back to
the defaults (`ValueError` is caught), per-user entries of any non-numeric
type fall back to `users_default`, and whenever the two top-level extractions
do not raise, no exception escapes `get_inviter_user`; only a `None`, list, or
dict value under `invite` or `users_default` raises a `TypeError` that
escapes. -/
theorem get_inviter_user_malformed_defaults :
    (∀ (isMine : String → Bool) (plEvents memberEvents : List StateEvent)
      (pl : List (String × PyVal)),
      (plEvents.find?
          (fun e => e.type == EVENT_TYPE_M_ROOM_POWER_LEVELS)).map
          (fun e => e.content) = some pl →
      isOkE (extractPowerInt pl INVITE_POWER_LEVEL_KEY
        DEFAULT_INVITE_POWER_LEVEL) = true →
      isOkE (extractPowerInt pl USERS_DEFAULT_POWER_LEVEL_KEY
        DEFAULT_USERS_DEFAULT_POWER_LEVEL) = true →
      isOkE (get_inviter_user isMine plEvents memberEvents) = true) ∧
    (∀ (users : List (String × PyVal)) (usersDefault : Int) (uid : String)
      (e : PyErr) (v : PyVal), dget users uid = some v →
      pyIntConv v = .error e →
      effectivePower users usersDefault uid = usersDefault) ∧
    (∀ (pl : List (String × PyVal)) (key : String) (dflt : Int) (s : String),
      dget pl key = some (.str s) → parseIntLit s = Option.none →
      extractPowerInt pl key dflt = .ok dflt) := by
  refine ⟨?_, ?_, ?_⟩
  · intro isMine plEvents memberEvents pl hpl hipOk hudOk
    by_cases hne : pl = []
    · subst hne
      simp [get_inviter_user, hpl, isOkE, pure, Except.pure]
    · cases hip : extractPowerInt pl INVITE_POWER_LEVEL_KEY
        DEFAULT_INVITE_POWER_LEVEL with
      | error e => rw [hip] at hipOk; exact absurd hipOk (by simp [isOkE])
      | ok ip =>
        cases hud : extractPowerInt pl USERS_DEFAULT_POWER_LEVEL_KEY
          DEFAULT_USERS_DEFAULT_POWER_LEVEL with
        | error e => rw [hud] at hudOk; exact absurd hudOk (by simp [isOkE])
        | ok ud =>
          rw [get_inviter_user_eq isMine plEvents memberEvents pl ip ud hpl
            hne hip hud]
          by_cases hm : (localJoinedMembers isMine memberEvents).isEmpty
          · simp [hm, isOkE]
          · simp only [hm, Bool.false_eq_true, if_false]
            cases hpick : pickHighestPower (usersPowerLevel pl) ud
              (localJoinedMembers isMine memberEvents) with
            | none => simp [isOkE]
            | some best =>
              by_cases hlt : best.2 < ip
              · simp [hlt, isOkE]
              · simp [hlt, isOkE]
  · intro users usersDefault uid e v hv herr
    simp [effectivePower, hv, herr]
  · intro pl key dflt s hs hparse
    simp [extractPowerInt, hs, pyIntConv, hparse]

/-- C3 amended witness: an unparsable string under `invite` is caught and
defaulted, so the resolution finishes without an exception. -/
theorem get_inviter_user_malformed_defaults_witness :
    isOkE (get_inviter_user (fun _ => true)
      [⟨EVENT_TYPE_M_ROOM_POWER_LEVELS, .str "",
        [(INVITE_POWER_LEVEL_KEY, .str "not a number")]⟩] []) = true :=
  get_inviter_user_malformed_defaults.1 (fun _ => true)
    [⟨EVENT_TYPE_M_ROOM_POWER_LEVELS, .str "",
      [(INVITE_POWER_LEVEL_KEY, .str "not a number")]⟩] []
    [(INVITE_POWER_LEVEL_KEY, .str "not a number")] rfl (by decide) (by decide)

theorem pyEqStr_true_iff (v : PyVal) (lit : String) :
    pyEqStr v lit = true ↔ v = .str lit := by
  cases v <;> simp [pyEqStr]

theorem getD_none_eq_str (o : Option PyVal) (s : String)
    (h : o.getD .none = .str s) : o = some (.str s) := by
  cases o with
  | none => exact PyVal.noConfusion h
  | some v => rw [Option.getD_some] at h; rw [h]

/-- C4: the resolver follows the spec's resolution rule: no membership event
for the invitee yields false; a most recent `knock` yields true; a most recent
`invite` superseding a fetched event whose membership was `knock` yields true;
a bare `join` yields false; and these are the only histories that resolve to
true — whenever the resolver answers true, the most recent membership event
exists and is either a `knock` or an `invite` carrying a `replaces_state`
reference to a fetched event whose membership was `knock`, so every other
history yields false. -/
theorem has_user_previously_knocked_cases :
    (∀ (fetchEvent : String → Except PyErr (Option FetchedEvent)),
      has_user_previously_knocked (.ok []) fetchEvent = false) ∧
    (∀ (fetchEvent : String → Except PyErr (Option FetchedEvent))
      (e : MemberEvent) (rest : List MemberEvent),
      eventMembership e = .str "knock" →
      has_user_previously_knocked (.ok (e :: rest)) fetchEvent = true) ∧
    (∀ (fetchEvent : String → Except PyErr (Option FetchedEvent))
      (e : MemberEvent) (rest : List MemberEvent) (rs : String)
      (ev : FetchedEvent),
      eventMembership e = .str "invite" →
      dget e.unsigned "replaces_state" = some (.str rs) →
      fetchEvent rs = .ok (some ev) →
      dget ev.content MEMBERSHIP_CONTENT_KEY = some (.str "knock") →
      has_user_previously_knocked (.ok (e :: rest)) fetchEvent = true) ∧
    (∀ (fetchEvent : String → Except PyErr (Option FetchedEvent))
      (e : MemberEvent) (rest : List MemberEvent),
      eventMembership e = .str "join" →
      has_user_previously_knocked (.ok (e :: rest)) fetchEvent = false) ∧
    (∀ (fetchState : Except PyErr (List MemberEvent))
      (fetchEvent : String → Except PyErr (Option FetchedEvent)),
      has_user_previously_knocked fetchState fetchEvent = true →
      ∃ e rest, fetchState = .ok (e :: rest) ∧
        (eventMembership e = .str "knock" ∨
          (eventMembership e = .str "invite" ∧
            ∃ rs ev, dget e.unsigned "replaces_state" = some (.str rs) ∧
              fetchEvent rs = .ok (some ev) ∧
              dget ev.content MEMBERSHIP_CONTENT_KEY =
                some (.str "knock")))) := by
  refine ⟨?_, ?_, ?_, ?_, ?_⟩
  · intro fetchEvent
    simp [has_user_previously_knocked, hasKnockedBody, Bind.bind, Except.bind,
      pure, Except.pure]
  · intro fetchEvent e rest h
    simp only [has_user_previously_knocked, hasKnockedBody, Bind.bind,
      Except.bind, pure, Except.pure, h, pyTruthy, pyEqStr]
    rfl
  · intro fetchEvent e rest rs ev hm hrs hfe hk
    simp [has_user_previously_knocked, hasKnockedBody, Bind.bind,
      Except.bind, pure, Except.pure, hm, hrs, hfe, hk, pyTruthy, pyEqStr,
      show ("invite".isEmpty : Bool) = false from rfl,
      show (("invite" == "knock") : Bool) = false from rfl,
      show (("invite" == "invite") : Bool) = true from rfl]
  · intro fetchEvent e rest h
    simp only [has_user_previously_knocked, hasKnockedBody, Bind.bind,
      Except.bind, pure, Except.pure, h, pyTruthy, pyEqStr]
    rfl
  · intro fetchState fetchEvent h
    unfold has_user_previously_knocked at h
    cases hfs : fetchState with
    | error err =>
      rw [hfs] at h
      simp [hasKnockedBody, Bind.bind, Except.bind] at h
    | ok evs =>
      rw [hfs] at h
      cases evs with
      | nil =>
        simp [hasKnockedBody, Bind.bind, Except.bind, pure, Except.pure] at h
      | cons e rest =>
        refine ⟨e, rest, rfl, ?_⟩
        simp only [hasKnockedBody, Bind.bind, Except.bind] at h
        by_cases ht : pyTruthy (eventMembership e) = true
        · by_cases hk : pyEqStr (eventMembership e) "knock" = true
          · exact Or.inl ((pyEqStr_true_iff _ _).mp hk)
          · rw [Bool.not_eq_true] at hk
            by_cases hi : pyEqStr (eventMembership e) "invite" = true
            · refine Or.inr ⟨(pyEqStr_true_iff _ _).mp hi, ?_⟩
              simp only [ht, hk, hi, Bool.not_true, Bool.false_eq_true,
                if_false, if_true] at h
              cases hgd : (dget e.unsigned "replaces_state").getD .none with
              | str rs =>
                rw [hgd] at h
                dsimp only at h
                cases hfe : fetchEvent rs with
                | error err2 =>
                  rw [hfe] at h
                  simp [Except.bind, pure, Except.pure] at h
                | ok v =>
                  rw [hfe] at h
                  cases v with
                  | none => simp [Except.bind, pure, Except.pure] at h
                  | some ev =>
                    by_cases hke : pyEqStr
                      ((dget ev.content MEMBERSHIP_CONTENT_KEY).getD .none)
                      "knock" = true
                    · exact ⟨rs, ev, getD_none_eq_str _ _ hgd, hfe,
                        getD_none_eq_str _ _ ((pyEqStr_true_iff _ _).mp hke)⟩
                    · rw [Bool.not_eq_true] at hke
                      simp [Except.bind, pure, Except.pure, hke] at h
              | none => rw [hgd] at h; simp [pure, Except.pure] at h
              | int n => rw [hgd] at h; simp [pure, Except.pure] at h
              | bool b => rw [hgd] at h; simp [pure, Except.pure] at h
              | list xs => rw [hgd] at h; simp [pure, Except.pure] at h
              | dict xs => rw [hgd] at h; simp [pure, Except.pure] at h
            · rw [Bool.not_eq_true] at hi
              simp [ht, hk, hi, pure, Except.pure] at h
        · rw [Bool.not_eq_true] at ht
          simp [ht, pure, Except.pure] at h

/-- C4 witness: concrete knock-chain `knock(E1)` then `invite(E2,
supersedes=E1)` resolves to true. -/
theorem has_user_previously_knocked_cases_witness :
    has_user_previously_knocked
      (.ok [⟨Option.none, [(MEMBERSHIP_CONTENT_KEY, .str "invite")],
        [("replaces_state", .str "$e1")]⟩])
      (fun rs => if rs == "$e1" then
        .ok (some ⟨[(MEMBERSHIP_CONTENT_KEY, .str "knock")]⟩)
      else .ok Option.none) = true :=
  has_user_previously_knocked_cases.2.2.1
    (fun rs => if rs == "$e1" then
      .ok (some ⟨[(MEMBERSHIP_CONTENT_KEY, .str "knock")]⟩)
    else .ok Option.none)
    ⟨Option.none, [(MEMBERSHIP_CONTENT_KEY, .str "invite")],
      [("replaces_state", .str "$e1")]⟩ [] "$e1"
    ⟨[(MEMBERSHIP_CONTENT_KEY, .str "knock")]⟩ rfl rfl rfl rfl

/-- C5: any failing lookup makes the resolver answer false rather than raise:
a failing state fetch yields false, and a failing superseded-event fetch on
the invite branch yields false; the result type is `Bool`, so no embedded
exception can propagate. -/
theorem has_user_previously_knocked_failsafe
    (fetchEvent : String → Except PyErr (Option FetchedEvent))
    (e : MemberEvent) (rest : List MemberEvent) (err : PyErr) (rs : String)
    (hm : eventMembership e = .str "invite")
    (hrs : dget e.unsigned "replaces_state" = some (.str rs))
    (hfe : fetchEvent rs = .error err) :
    has_user_previously_knocked (.error err) fetchEvent = false ∧
    has_user_previously_knocked (.ok (e :: rest)) fetchEvent = false := by
  constructor
  · simp [has_user_previously_knocked, hasKnockedBody, Bind.bind, Except.bind]
  · simp [has_user_previously_knocked, hasKnockedBody, Bind.bind,
      Except.bind, pure, Except.pure, hm, hrs, hfe, pyTruthy, pyEqStr,
      show ("invite".isEmpty : Bool) = false from rfl,
      show (("invite" == "knock") : Bool) = false from rfl,
      show (("invite" == "invite") : Bool) = true from rfl]

/-- C5 witness: a failing state fetch and a failing superseded-event fetch
both produce false at a concrete invite event. -/
theorem has_user_previously_knocked_failsafe_witness :
    has_user_previously_knocked (.error .ioError)
      (fun _ => .error .ioError) = false ∧
    has_user_previously_knocked
      (.ok [⟨Option.none, [(MEMBERSHIP_CONTENT_KEY, .str "invite")],
        [("replaces_state", .str "$e1")]⟩])
      (fun _ => .error .ioError) = false :=
  has_user_previously_knocked_failsafe (fun _ => .error .ioError)
    ⟨Option.none, [(MEMBERSHIP_CONTENT_KEY, .str "invite")],
      [("replaces_state", .str "$e1")]⟩ [] .ioError "$e1" rfl rfl rfl

/-- C6: for every sequence of outcomes of the external join call, the retry
loop makes at most 5 attempts, the delays slept are an initial run of the
doubling schedule 0, 1, 2, 4, 8, and they are non-decreasing. -/
theorem retry_make_join_bounded (outcome : Nat → Bool) :
    (retry_make_join outcome).length ≤ 5 ∧
    retry_make_join outcome =
      [0, 1, 2, 4, 8].take (retry_make_join outcome).length ∧
    List.Pairwise (fun a b => a ≤ b) (retry_make_join outcome) := by
  have h5 : ∀ s, retryMakeJoinLoop outcome s 5 = [] := by
    intro s
    rw [retryMakeJoinLoop]
    simp
  have h4 : ∀ s, retryMakeJoinLoop outcome s 4 = [s] := by
    intro s
    rw [retryMakeJoinLoop]
    by_cases h : outcome 4 <;> simp [h, h5]
  have step : ∀ s r, r < 5 →
      retryMakeJoinLoop outcome s r =
        if outcome r then [s]
        else s :: retryMakeJoinLoop outcome (2 ^ r) (r + 1) := by
    intro s r hr
    rw [retryMakeJoinLoop]
    simp [hr]
  have key : retry_make_join outcome = [0] ∨
      retry_make_join outcome = [0, 1] ∨
      retry_make_join outcome = [0, 1, 2] ∨
      retry_make_join outcome = [0, 1, 2, 4] ∨
      retry_make_join outcome = [0, 1, 2, 4, 8] := by
    unfold retry_make_join
    rw [step 0 0 (by omega)]
    by_cases h0 : outcome 0
    · rw [if_pos h0]; exact Or.inl rfl
    · rw [if_neg h0, show (2 : Nat) ^ 0 = 1 from rfl,
        show 0 + 1 = 1 from rfl, step 1 1 (by omega)]
      by_cases h1 : outcome 1
      · rw [if_pos h1]; exact Or.inr (Or.inl rfl)
      · rw [if_neg h1, show (2 : Nat) ^ 1 = 2 from rfl,
          show 1 + 1 = 2 from rfl, step 2 2 (by omega)]
        by_cases h2 : outcome 2
        · rw [if_pos h2]; exact Or.inr (Or.inr (Or.inl rfl))
        · rw [if_neg h2, show (2 : Nat) ^ 2 = 4 from rfl,
            show 2 + 1 = 3 from rfl, step 4 3 (by omega)]
          by_cases h3 : outcome 3
          · rw [if_pos h3]; exact Or.inr (Or.inr (Or.inr (Or.inl rfl)))
          · rw [if_neg h3, show (2 : Nat) ^ 3 = 8 from rfl,
              show 3 + 1 = 4 from rfl, h4 8]
            exact Or.inr (Or.inr (Or.inr (Or.inr rfl)))
  rcases key with h | h | h | h | h <;> rw [h] <;> exact ⟨by decide, by decide,
    by decide⟩

theorem dget_nil (k : String) : dget [] k = Option.none := rfl

theorem dget_cons (a : String × PyVal) (l : List (String × PyVal))
    (k : String) :
    dget (a :: l) k = if a.1 == k then some a.2 else dget l k := by
  by_cases h : (a.1 == k) = true <;>
    simp [dget, List.find?_cons, h]

theorem dget_map_update (d : List (String × PyVal)) (key k : String)
    (v : PyVal) (hk : k ≠ key) :
    dget (d.map (fun kv => if kv.1 == key then (key, v) else kv)) k =
      dget d k := by
  have hkk : (key == k) = false :=
    beq_eq_false_iff_ne.mpr (fun h => hk h.symm)
  induction d with
  | nil => rfl
  | cons a l ih =>
    rw [List.map_cons, dget_cons, dget_cons]
    by_cases ha : (a.1 == key) = true
    · have ha' : a.1 = key := eq_of_beq ha
      rw [if_pos ha]
      have hak : (a.1 == k) = false := by rw [ha']; exact hkk
      rw [show ((key, v).1 == k) = false from hkk, hak]
      simp only [Bool.false_eq_true, if_false]
      exact ih
    · rw [if_neg ha]
      cases hak : (a.1 == k) with
      | true => simp [hak]
      | false => simp only [hak, Bool.false_eq_true, if_false]; exact ih

theorem dget_append_ne (d : List (String × PyVal)) (key k : String)
    (v : PyVal) (hk : k ≠ key) :
    dget (d ++ [(key, v)]) k = dget d k := by
  have hkk : (key == k) = false :=
    beq_eq_false_iff_ne.mpr (fun h => hk h.symm)
  induction d with
  | nil =>
    rw [List.nil_append, dget_cons, hkk]
    simp
  | cons a l ih =>
    rw [List.cons_append, dget_cons, dget_cons]
    cases hak : (a.1 == k) with
    | true => simp [hak]
    | false => simp only [hak, Bool.false_eq_true, if_false]; exact ih

theorem dget_dset_ne (d : List (String × PyVal)) (key k : String) (v : PyVal)
    (hk : k ≠ key) : dget (dset d key v) k = dget d k := by
  unfold dset
  by_cases hf : (d.find? (fun kv => kv.1 == key)).isSome
  · rw [if_pos hf]
    exact dget_map_update d key k v hk
  · rw [if_neg hf]
    exact dget_append_ne d key k v hk

/-- C8 counterexample: when the stored collection for the counterparty
already contains the room, the tagger appends it again — the written
collection holds the room twice, refuting the claim that it never does. -/
theorem mark_room_as_direct_message_duplicates :
    mark_room_as_direct_message
      [("@bob:pangea.chat", .list [.str "!room1:pangea.chat"])]
      "@bob:pangea.chat" "!room1:pangea.chat" =
      some [("@bob:pangea.chat",
        .list [.str "!room1:pangea.chat", .str "!room1:pangea.chat"])] := rfl

/-- C8 amended: the tagger appends the room to the counterparty's collection
unconditionally (it never checks for prior presence, so duplicates can
occur), and it aborts without writing anything when the stored value for the
counterparty is not an ordered collection. -/
theorem mark_room_as_direct_message_append_or_abort :
    (∀ (dm_map : List (String × PyVal)) (dm_user_id room_id : String)
      (rooms : List PyVal),
      dget dm_map dm_user_id = some (.list rooms) →
      mark_room_as_direct_message dm_map dm_user_id room_id =
        some (dset dm_map dm_user_id
          (.list (rooms ++ [.str room_id])))) ∧
    (∀ (dm_map : List (String × PyVal)) (dm_user_id room_id : String)
      (v : PyVal), dget dm_map dm_user_id = some v →
      (∀ rooms : List PyVal, v ≠ .list rooms) →
      mark_room_as_direct_message dm_map dm_user_id room_id =
        Option.none) := by
  constructor
  · intro dm_map dm_user_id room_id rooms h
    simp [mark_room_as_direct_message, h]
  · intro dm_map dm_user_id room_id v h hv
    cases v with
    | list rooms => exact absurd rfl (hv rooms)
    | str s => simp [mark_room_as_direct_message, h]
    | int n => simp [mark_room_as_direct_message, h]
    | bool b => simp [mark_room_as_direct_message, h]
    | none => simp [mark_room_as_direct_message, h]
    | dict xs => simp [mark_room_as_direct_message, h]

/-- C8 amended witness: appending to Bob's existing one-room collection, and
aborting on Bob's non-collection entry. -/
theorem mark_room_as_direct_message_append_or_abort_witness :
    mark_room_as_direct_message
      [("@bob:pangea.chat", .list [.str "!room1:pangea.chat"])]
      "@bob:pangea.chat" "!room2:pangea.chat" =
      some (dset [("@bob:pangea.chat", .list [.str "!room1:pangea.chat"])]
        "@bob:pangea.chat"
        (.list [.str "!room1:pangea.chat", .str "!room2:pangea.chat"])) ∧
    mark_room_as_direct_message [("@bob:pangea.chat", .str "garbage")]
      "@bob:pangea.chat" "!room2:pangea.chat" = Option.none :=
  ⟨mark_room_as_direct_message_append_or_abort.1
      [("@bob:pangea.chat", .list [.str "!room1:pangea.chat"])]
      "@bob:pangea.chat" "!room2:pangea.chat" [.str "!room1:pangea.chat"] rfl,
    mark_room_as_direct_message_append_or_abort.2
      [("@bob:pangea.chat", .str "garbage")] "@bob:pangea.chat"
      "!room2:pangea.chat" (.str "garbage") rfl
      (fun rooms h => by cases h)⟩

/-- C10: the tagger's write touches at most the given counterparty's entry —
every other key reads back unchanged from the written map — and when the
stored entry shape is unrecognized the tagger performs no write at all. -/
theorem mark_room_as_direct_message_frame :
    (∀ (dm_map : List (String × PyVal)) (dm_user_id room_id : String)
      (written : List (String × PyVal)) (k : String),
      mark_room_as_direct_message dm_map dm_user_id room_id = some written →
      k ≠ dm_user_id → dget written k = dget dm_map k) ∧
    (∀ (dm_map : List (String × PyVal)) (dm_user_id room_id : String)
      (rooms : List (String × PyVal)),
      dget dm_map dm_user_id = some (.dict rooms) →
      mark_room_as_direct_message dm_map dm_user_id room_id =
        Option.none) := by
  constructor
  · intro dm_map dm_user_id room_id written k hw hk
    unfold mark_room_as_direct_message at hw
    cases hd : dget dm_map dm_user_id with
    | none =>
      rw [hd] at hw
      cases hw
      exact dget_dset_ne dm_map dm_user_id k _ hk
    | some v =>
      rw [hd] at hw
      cases v with
      | list rooms =>
        cases hw
        exact dget_dset_ne dm_map dm_user_id k _ hk
      | str s => cases hw
      | int n => cases hw
      | bool b => cases hw
      | none => cases hw
      | dict xs => cases hw
  · intro dm_map dm_user_id room_id rooms h
    simp [mark_room_as_direct_message, h]

/-- C10 witness: writing Bob's entry leaves Carol's entry untouched, and a
dict-shaped entry for Bob aborts the write. -/
theorem mark_room_as_direct_message_frame_witness :
    dget (dset [("@bob:pangea.chat", .list []),
        ("@carol:pangea.chat", .list [])] "@bob:pangea.chat"
        (.list [.str "!room1:pangea.chat"])) "@carol:pangea.chat" =
      dget [("@bob:pangea.chat", .list []),
        ("@carol:pangea.chat", .list [])] "@carol:pangea.chat" ∧
    mark_room_as_direct_message [("@bob:pangea.chat", .dict [])]
      "@bob:pangea.chat" "!room1:pangea.chat" = Option.none :=
  ⟨mark_room_as_direct_message_frame.1
      [("@bob:pangea.chat", .list []), ("@carol:pangea.chat", .list [])]
      "@bob:pangea.chat" "!room1:pangea.chat"
      (dset [("@bob:pangea.chat", .list []),
        ("@carol:pangea.chat", .list [])] "@bob:pangea.chat"
        (.list [.str "!room1:pangea.chat"])) "@carol:pangea.chat" rfl
      (by decide),
    mark_room_as_direct_message_frame.2 [("@bob:pangea.chat", .dict [])]
      "@bob:pangea.chat" "!room1:pangea.chat" [] rfl⟩

/-- C7 counterexample: a direct invite for a local user who previously
knocked, with an account-data store that raises, makes the exception escape
`on_new_event` — the entry point has no boundary catch on this path. -/
theorem on_new_event_exception_escapes :
    on_new_event (fun _ => true) true (.error .ioError)
      ⟨"m.room.member", true, "invite", "@dana:pangea.chat",
        "@bob:pangea.chat", "!room1:pangea.chat",
        [("is_direct", .bool true)]⟩ = .error .ioError := rfl

/-- C7 amended: no exception escapes `on_new_event` except through the
direct-message tagging step: when the account-data write succeeds, when the
event is not an invite, when the knock check fails, or when the invite is not
flagged direct, the entry point finishes without an exception. -/
theorem on_new_event_no_escape_except_dm :
    (∀ (isMine : String → Bool) (hasKnocked : Bool)
      (markDM : Except PyErr Unit) (e : NewEvent), markDM = .ok () →
      ∃ tasks, on_new_event isMine hasKnocked markDM e = .ok tasks) ∧
    (∀ (isMine : String → Bool) (hasKnocked : Bool)
      (markDM : Except PyErr Unit) (e : NewEvent),
      (e.membership == "invite") = false →
      ∃ tasks, on_new_event isMine hasKnocked markDM e = .ok tasks) ∧
    (∀ (isMine : String → Bool) (markDM : Except PyErr Unit) (e : NewEvent),
      ∃ tasks, on_new_event isMine false markDM e = .ok tasks) ∧
    (∀ (isMine : String → Bool) (hasKnocked : Bool)
      (markDM : Except PyErr Unit) (e : NewEvent),
      pyTruthy ((dget e.content "is_direct").getD (.bool false)) = false →
      ∃ tasks, on_new_event isMine hasKnocked markDM e = .ok tasks) := by
  refine ⟨?_, ?_, ?_, ?_⟩
  · intro isMine hasKnocked markDM e hok
    subst hok
    unfold on_new_event
    repeat' split
    all_goals first | exact ⟨_, rfl⟩ | simp_all
  · intro isMine hasKnocked markDM e hm
    unfold on_new_event
    repeat' split
    all_goals first | exact ⟨_, rfl⟩ | simp_all
  · intro isMine markDM e
    unfold on_new_event
    repeat' split
    all_goals first | exact ⟨_, rfl⟩ | simp_all
  · intro isMine hasKnocked markDM e hd
    unfold on_new_event
    repeat' split
    all_goals first | exact ⟨_, rfl⟩ | simp_all

/-- C7 amended witness: the same direct-invite event with a succeeding
account-data write finishes without an exception. -/
theorem on_new_event_no_escape_except_dm_witness :
    ∃ tasks, on_new_event (fun _ => true) true (.ok ())
      ⟨"m.room.member", true, "invite", "@dana:pangea.chat",
        "@bob:pangea.chat", "!room1:pangea.chat",
        [("is_direct", .bool true)]⟩ = .ok tasks :=
  on_new_event_no_escape_except_dm.1 (fun _ => true) true (.ok ())
    ⟨"m.room.member", true, "invite", "@dana:pangea.chat",
      "@bob:pangea.chat", "!room1:pangea.chat",
      [("is_direct", .bool true)]⟩ rfl

/-- C1 (code bug): the departure entry point never issues any event — on
every input its action trace is empty — and on the concrete failing input (a
knock-restricted room whose only local joined member Bob has effective power
0, below the invite power 50) it resolves no inviter and issues no
power-levels update, although the claim, the repository's own e2e test
`test_promote_on_leave_knock_restricted`, and the function's docstring say
Bob's entry must be raised to the invite power. -/
theorem ensure_inviter_on_leave_no_promotion :
    (∀ (isMine : String → Bool)
      (joinRulesEvents plEvents memberEvents : List StateEvent),
      (ensure_inviter_on_leave isMine joinRulesEvents plEvents
        memberEvents).2 = []) ∧
    ensure_inviter_on_leave (fun _ => true)
      [⟨EVENT_TYPE_M_ROOM_JOIN_RULES, .str "",
        [(JOIN_RULE_CONTENT_KEY, .str "knock_restricted")]⟩]
      [samplePL] [sampleBob] = (Option.none, []) := by
  constructor
  · intro isMine joinRulesEvents plEvents memberEvents
    unfold ensure_inviter_on_leave
    dsimp only
    split
    · rfl
    · split <;> rfl
  · rfl

/-- C9: immediately after `recordFailure` the room is skipped, and once the
cooldown window has elapsed since the recorded failure it is not. -/
theorem recordFailure_shouldSkip (t : CooldownTracker) (room : String)
    (now later : Nat) (h : now + cooldownWindow ≤ later) :
    shouldSkip (recordFailure t room now) room now = true ∧
    shouldSkip (recordFailure t room now) room later = false := by
  constructor
  · simp [shouldSkip, recordFailure, cooldownWindow]
  · simp only [cooldownWindow] at h
    simp [shouldSkip, recordFailure, cooldownWindow]
    omega

/-- C9 witness: recording a failure at time 0 skips the room at time 0 and no
longer skips it at time 300. -/
theorem recordFailure_shouldSkip_witness :
    shouldSkip (recordFailure ⟨fun _ => Option.none⟩ "!room1:pangea.chat" 0)
      "!room1:pangea.chat" 0 = true ∧
    shouldSkip (recordFailure ⟨fun _ => Option.none⟩ "!room1:pangea.chat" 0)
      "!room1:pangea.chat" 300 = false :=
  recordFailure_shouldSkip ⟨fun _ => Option.none⟩ "!room1:pangea.chat" 0 300
    (by decide)

end PangeaChat
